import Mathlib

/-
Verification of the GeoAI streaming chat core.

The embedding below follows the ChatInterface component
(frontend ChatInterface.tsx, given here as src/unnamed/part_001):
its handleSubmit stream-reading loop (lines 156-221), the per-event
message-state updates, handleStop (lines 230-233), and the data model
from frontend/my-app/lib/api.ts (Source) and the local Message
interface (part_001 lines 20-25); and the backend supervision code of
the Electron main process, main.js, embedded as the second concatenated
document in src/assets/icon-conversion-script.sh (lines 107-373).
-/

namespace GeoAI

/-- Message role, from the Message interface (part_001 lines 20-25). -/
inductive Role where
  | user
  | assistant
deriving DecidableEq

/-- Source descriptor, from lib/api.ts (interface Source). -/
structure Source where
  source : String
  path : String
  page : Option Nat
  content : Option String
deriving DecidableEq

/-- Chat message, from the Message interface (part_001 lines 20-25).
Optional fields of the TypeScript interface are Options here; an absent
field is none. -/
structure Message where
  role : Role
  content : String
  sources : Option (List Source)
  isThinking : Option Bool
deriving DecidableEq

/-- The value produced by JSON.parse on one data line, restricted to the
fields the dispatch chain reads (part_001 lines 173-207): data.type,
data.content, data.sources, data.error, data.done.  A field that is
absent or of an unexpected shape is none; done models the truthiness of
data.done (absent means false). -/
structure SseData where
  type : Option String
  content : Option String
  sources : Option (List Source)
  error : Option String
  done : Bool
deriving DecidableEq

/-- The mutable state of one chat turn inside handleSubmit:
the messages list (React state), the local messageContent accumulator
(line 158), the isProcessing flag (line 38), the component-level
isThinking flag (line 28, called uiThinking here to keep it apart from
the per-message field), and the error channel (line 40). -/
structure TurnState where
  messages : List Message
  messageContent : String
  isProcessing : Bool
  uiThinking : Bool
  uiError : Option String
deriving DecidableEq

/-- Outcome of one step of the event loop: either the updated state, or a
thrown exception carrying the state at the throw point together with the
message of the thrown Error. -/
inductive StepOut where
  | ok : TurnState → StepOut
  | thrown : TurnState → String → StepOut
deriving DecidableEq

/-- The state carried by a step outcome. -/
def stateOf : StepOut → TurnState
  | StepOut.ok s => s
  | StepOut.thrown s _ => s

/-- Replace the last element of the list, as the copy-and-mutate updater
newMessages := [...prev]; newMessages[newMessages.length - 1] := m does. -/
def setLast (ms : List Message) (m : Message) : List Message :=
  ms.dropLast ++ [m]

/-- Fallback text of the error branch (part_001 line 203). -/
def unknownErrorText : String := "Unknown error occurred"

/-- new Error(data.error or the fallback): the JS truthiness test treats
an absent field and the empty string alike (part_001 line 203). -/
def errText (d : SseData) : String :=
  match d.error with
  | some e => if e = "" then unknownErrorText else e
  | none => unknownErrorText

/-- Message of the TypeError raised when the updater reads .role from
newMessages[newMessages.length - 1] on an empty list (engine specific;
modelled as a fixed text). -/
def typeErrorText : String := "TypeError: lastMessage is undefined"

/-- One decoded record applied to the turn state: the dispatch chain of
part_001 lines 175-207.  Branch order matches the else-if chain:
sources, token, error, done.  sources sets the sources field and sets
isThinking back to true (lines 181-183); token appends to
messageContent first (line 190) and then rewrites the last message
(lines 191-200) when its content field is present; error throws
(line 203); done only clears the processing flag (line 206); any other
record falls through with no effect. -/
def processData (s : TurnState) (d : SseData) : StepOut :=
  if d.type = some "sources" then
    match s.messages.getLast? with
    | none => StepOut.thrown s typeErrorText
    | some m =>
      if m.role = Role.assistant then
        StepOut.ok { s with
          messages := setLast s.messages
            { m with sources := d.sources, isThinking := some true } }
      else StepOut.ok s
  else if d.type = some "token" then
    match d.content with
    | none => StepOut.ok s
    | some c =>
      match s.messages.getLast? with
      | none =>
        StepOut.thrown { s with messageContent := s.messageContent ++ c }
          typeErrorText
      | some m =>
        if m.role = Role.assistant then
          StepOut.ok { s with
            messageContent := s.messageContent ++ c,
            messages := setLast s.messages
              { m with isThinking := some false,
                       content := s.messageContent ++ c } }
        else StepOut.ok { s with messageContent := s.messageContent ++ c }
  else if d.type = some "error" then
    StepOut.thrown s (errText d)
  else if d.type = some "done" ∨ d.done then
    StepOut.ok { s with isProcessing := false }
  else
    StepOut.ok s

/-- The event loop over a list of decoded records, stopping at the first
thrown exception (the rethrow at part_001 line 210 propagates it out of
the read loop). -/
def runRecords : TurnState → List SseData → StepOut
  | s, [] => StepOut.ok s
  | s, d :: ds =>
    match processData s d with
    | StepOut.ok s' => runRecords s' ds
    | StepOut.thrown t m => StepOut.thrown t m

/-- End of the turn: on normal EOF the processing flag is cleared
(part_001 line 215); a thrown exception reaches the catch block
(lines 216-221), which stores the message on the error channel, drops
the last element of the messages list, and clears the processing flag. -/
def finishTurn : StepOut → TurnState
  | StepOut.ok s => { s with isProcessing := false }
  | StepOut.thrown s m =>
    { s with uiError := some m,
             messages := s.messages.dropLast,
             isProcessing := false }

/-- A whole turn at the decoded-record level: run every record, then
apply the EOF or catch epilogue. -/
def runTurn (s : TurnState) (ds : List SseData) : TurnState :=
  finishTurn (runRecords s ds)

/-- The user message pushed at part_001 line 128. -/
def userMessage (msg : String) : Message :=
  { role := Role.user, content := msg, sources := none, isThinking := none }

/-- The assistant placeholder pushed at part_001 lines 131-135. -/
def assistantPlaceholder : Message :=
  { role := Role.assistant, content := "", sources := none, isThinking := some true }

/-- The turn state right after handleSubmit has accepted a message
(part_001 lines 122-135): error channel cleared, processing flag set,
user message and thinking assistant placeholder appended. -/
def submitState (prior : List Message) (msg : String) : TurnState :=
  { messages := prior ++ [userMessage msg, assistantPlaceholder],
    messageContent := "",
    isProcessing := true,
    uiThinking := false,
    uiError := none }

/-- handleStop (part_001 lines 230-233): it only resets the two UI
flags; nothing else happens. -/
def handleStop (s : TurnState) : TurnState :=
  { s with uiThinking := false, isProcessing := false }

/-- A decoded sources record. -/
def mkSources (l : List Source) : SseData :=
  { type := some "sources", content := none, sources := some l,
    error := none, done := false }

/-- A decoded token record with a present content field. -/
def mkToken (c : String) : SseData :=
  { type := some "token", content := some c, sources := none,
    error := none, done := false }

/-- A decoded done record. -/
def mkDone : SseData :=
  { type := some "done", content := none, sources := none,
    error := none, done := false }

/-- A decoded error record. -/
def mkError (e : String) : SseData :=
  { type := some "error", content := none, sources := none,
    error := some e, done := false }

/-- Whitespace as stripped by the JS String.prototype.trim call at
part_001 line 169 (the common ASCII whitespace characters). -/
def isWsChar (c : Char) : Bool :=
  c = ' ' || c = '\t' || c = '\n' || c = '\r' ||
  c = Char.ofNat 11 || c = Char.ofNat 12

/-- line.trim(): strip whitespace from both ends. -/
def trimChars (l : List Char) : List Char :=
  ((l.dropWhile isWsChar).reverse.dropWhile isWsChar).reverse

/-- The fixed marker tested at part_001 line 170. -/
def dataMarker : List Char := "data: ".toList

/-- Message of the SyntaxError raised by JSON.parse on a malformed
payload (engine specific; modelled as a fixed text). -/
def jsonSyntaxErrorText : String := "SyntaxError: JSON parse failure"

/-- One line of the split buffer (the body of the for loop, part_001
lines 168-212): trim, test the marker; on a marker line, parse the
payload after the six marker characters and dispatch, where a parse
failure throws (JSON.parse inside the try, rethrown at line 210); any
other line is skipped.  JSON.parse itself is a platform builtin, so it
enters the model as the parse argument, with none standing for a throw
of SyntaxError. -/
def processLine (parse : List Char → Option SseData)
    (s : TurnState) (line : List Char) : StepOut :=
  let t := trimChars line
  if dataMarker.isPrefixOf t then
    match parse (t.drop dataMarker.length) with
    | none => StepOut.thrown s jsonSyntaxErrorText
    | some d => processData s d
  else
    StepOut.ok s

/-- The loop over the complete lines of one turn, stopping at the first
thrown exception. -/
def runLines (parse : List Char → Option SseData) :
    TurnState → List (List Char) → StepOut
  | s, [] => StepOut.ok s
  | s, l :: ls =>
    match processLine parse s l with
    | StepOut.ok s' => runLines parse s' ls
    | StepOut.thrown t m => StepOut.thrown t m

/-- A whole turn at the line level: run every complete line, then apply
the EOF or catch epilogue. -/
def runLinesTurn (parse : List Char → Option SseData)
    (s : TurnState) (ls : List (List Char)) : TurnState :=
  finishTurn (runLines parse s ls)

/-- buffer.split on newline with the trailing segment removed: the
complete lines (in order) and the trailing partial segment that becomes
the new buffer (part_001 lines 165-166). -/
def splitNl : List Char → List (List Char) × List Char
  | [] => ([], [])
  | c :: cs =>
    if c = '\n' then
      ([] :: (splitNl cs).1, (splitNl cs).2)
    else
      match splitNl cs with
      | ([], b) => ([], c :: b)
      | (l :: ls, b) => ((c :: l) :: ls, b)

/-- The carry-over buffer loop of part_001 lines 160-166: append each
chunk to the buffer, split on newline, emit the complete lines, keep the
trailing partial line as the new buffer.  Returns the emitted lines in
order and the final buffer (discarded at EOF by the code). -/
def feedAll : List Char → List (List Char) → List (List Char) × List Char
  | buf, [] => ([], buf)
  | buf, ch :: chs =>
    ((splitNl (buf ++ ch)).1 ++ (feedAll (splitNl (buf ++ ch)).2 chs).1,
     (feedAll (splitNl (buf ++ ch)).2 chs).2)

/-- The candidate-record view of one line: none when the line does not
carry the marker, otherwise the result of the parse of its payload. -/
def lineRecord (parse : List Char → Option SseData)
    (l : List Char) : Option (Option SseData) :=
  let t := trimChars l
  if dataMarker.isPrefixOf t then some (parse (t.drop dataMarker.length))
  else none

/-- The ordered sequence of decoded records produced by feeding the
chunks through the carry-over buffer loop. -/
def decodeStream (parse : List Char → Option SseData)
    (chunks : List (List Char)) : List (Option SseData) :=
  ((feedAll [] chunks).1).filterMap (lineRecord parse)

/-- A whole turn at the chunk level: feed the chunks through the buffer
loop and process every complete line. -/
def runChunks (parse : List Char → Option SseData)
    (s : TurnState) (chunks : List (List Char)) : TurnState :=
  finishTurn (runLines parse s (feedAll [] chunks).1)

/-- The isThinking field of the last message, when there is one. -/
def lastThinking (s : TurnState) : Option (Option Bool) :=
  s.messages.getLast?.map Message.isThinking

/-- Apply a state transformation inside a step outcome. -/
def stepMap (f : TurnState → TurnState) : StepOut → StepOut
  | StepOut.ok s => StepOut.ok (f s)
  | StepOut.thrown s m => StepOut.thrown (f s) m

/-- The supervision-relevant global state of the Electron main
process, from main.js (the second document embedded in
src/assets/icon-conversion-script.sh, lines 107-373): whether
mainWindow is set and not destroyed, whether the backendProcess
reference is non-null, the allocated backendPort, and the backendReady
flag. -/
structure MainState where
  windowAlive : Bool
  backendProcessLive : Bool
  backendPort : Nat
  backendReady : Bool
deriving DecidableEq

/-- The fixed restart delay of the exit handler, in milliseconds
(setTimeout(startBackend, 5000)). -/
def restartDelayMs : Nat := 5000

/-- The backendProcess exit handler (icon-conversion-script.sh
lines 229-238): clear backendReady, then schedule startBackend after
5000 ms whenever mainWindow is alive and not destroyed.  The exit code
and signal are received but never consulted, and no stop flag or
readiness state is checked.  Returns the new state and the scheduled
restart delay, if any. -/
def onBackendExit (st : MainState) (code : Int) : MainState × Option Nat :=
  if st.windowAlive then
    ({ st with backendReady := false }, some restartDelayMs)
  else
    ({ st with backendReady := false }, none)

/-- stopBackend (icon-conversion-script.sh lines 271-278): when the
backendProcess reference is non-null, kill it with SIGTERM, null the
reference and clear backendReady.  It sets no flag that the exit
handler consults. -/
def stopBackend (st : MainState) : MainState :=
  if st.backendProcessLive then
    { st with backendProcessLive := false, backendReady := false }
  else st

end GeoAI

namespace GeoAI

/-- C2: submitting "hello" and processing the event sequence
sources([a.pdf at /x/a.pdf]), token("Hi"), token(" there"), done yields
a final last message with role assistant, content "Hi there", the
delivered source list, and isThinking false. -/
theorem C2_end_to_end_scenario :
    runTurn (submitState [] "hello")
      [mkSources [{ source := "a.pdf", path := "/x/a.pdf", page := none, content := none }],
       mkToken "Hi", mkToken " there", mkDone] =
    { messages :=
        [userMessage "hello",
         { role := Role.assistant, content := "Hi there",
           sources := some [{ source := "a.pdf", path := "/x/a.pdf", page := none, content := none }],
           isThinking := some false }],
      messageContent := "Hi there",
      isProcessing := false,
      uiThinking := false,
      uiError := none } := by
  decide

/-- C10: a decoded token record whose content field is absent leaves the
turn state completely unchanged and raises no error. -/
theorem C10_token_without_content (s : TurnState) (d : SseData)
    (ht : d.type = some "token") (hc : d.content = none) :
    processData s d = StepOut.ok s := by
  simp [processData, ht, hc]

/-- C10 witness: the theorem applied at a concrete state and record. -/
theorem C10_token_without_content_witness :
    processData (submitState [] "hi")
      { type := some "token", content := none, sources := none,
        error := none, done := false } =
    StepOut.ok (submitState [] "hi") :=
  C10_token_without_content _ _ rfl rfl

lemma splitNl_append (x y : List Char) :
    splitNl (x ++ y) =
      ((splitNl x).1 ++ (splitNl ((splitNl x).2 ++ y)).1,
       (splitNl ((splitNl x).2 ++ y)).2) := by
  induction x with
  | nil => simp [splitNl]
  | cons c cs ih =>
    by_cases hc : c = '\n'
    · subst hc
      simp [splitNl, ih]
    · rcases h1 : splitNl cs with ⟨ls, b⟩
      cases ls with
      | nil =>
        rcases h2 : splitNl (b ++ y) with ⟨ls2, b2⟩
        cases ls2 with
        | nil => simp [splitNl, hc, ih, h1, h2]
        | cons l2 ls2 => simp [splitNl, hc, ih, h1, h2]
      | cons l ls => simp [splitNl, hc, ih, h1]

lemma newline_not_mem_splitNl_snd (s : List Char) : '\n' ∉ (splitNl s).2 := by
  induction s with
  | nil => simp [splitNl]
  | cons c cs ih =>
    rcases h1 : splitNl cs with ⟨ls, b⟩
    rw [h1] at ih
    by_cases hc : c = '\n'
    · subst hc
      simpa [splitNl, h1] using ih
    · cases ls with
      | nil =>
        simp only [splitNl, hc, if_neg, h1]
        simp [List.mem_cons]
        exact ⟨fun h => hc h.symm, by simpa using ih⟩
      | cons l ls =>
        simpa [splitNl, hc, h1] using ih

lemma splitNl_no_newline (b : List Char) (h : '\n' ∉ b) : splitNl b = ([], b) := by
  induction b with
  | nil => simp [splitNl]
  | cons c cs ih =>
    simp only [List.mem_cons] at h
    push_neg at h
    obtain ⟨h1, h2⟩ := h
    have hc : ¬ c = '\n' := fun hcc => h1 hcc.symm
    simp [splitNl, hc, ih h2]

lemma splitNl_snd_fix (s : List Char) :
    splitNl ((splitNl s).2) = ([], (splitNl s).2) :=
  splitNl_no_newline _ (newline_not_mem_splitNl_snd s)

lemma feedAll_join (chs : List (List Char)) (buf : List Char)
    (h : splitNl buf = ([], buf)) :
    feedAll buf chs = splitNl (buf ++ chs.flatten) := by
  induction chs generalizing buf with
  | nil => simp [feedAll, h]
  | cons ch chs ih =>
    calc feedAll buf (ch :: chs)
        = ((splitNl (buf ++ ch)).1 ++ (feedAll (splitNl (buf ++ ch)).2 chs).1,
           (feedAll (splitNl (buf ++ ch)).2 chs).2) := by rw [feedAll]
      _ = ((splitNl (buf ++ ch)).1 ++
             (splitNl ((splitNl (buf ++ ch)).2 ++ chs.flatten)).1,
           (splitNl ((splitNl (buf ++ ch)).2 ++ chs.flatten)).2) := by
            rw [ih _ (splitNl_snd_fix (buf ++ ch))]
      _ = splitNl ((buf ++ ch) ++ chs.flatten) := (splitNl_append _ _).symm
      _ = splitNl (buf ++ (ch :: chs).flatten) := by simp [List.append_assoc]

lemma feedAll_nil_buf (chs : List (List Char)) :
    feedAll [] chs = splitNl chs.flatten := by
  simpa using feedAll_join chs [] (by simp [splitNl])

/-- C1: feeding any chunking of a byte stream through the carry-over
buffer loop yields the same ordered sequence of decoded records, and the
same final turn state, as delivering the whole stream in a single chunk. -/
theorem C1_chunk_boundary_invariance (parse : List Char → Option SseData)
    (s : TurnState) (chunks : List (List Char)) :
    decodeStream parse chunks = decodeStream parse [chunks.flatten] ∧
    runChunks parse s chunks = runChunks parse s [chunks.flatten] := by
  have h : (feedAll [] chunks).1 = (feedAll [] [chunks.flatten]).1 := by
    rw [feedAll_nil_buf, feedAll_nil_buf]
    simp
  exact ⟨by simp [decodeStream, h], by simp [runChunks, h]⟩

lemma processData_sources_app (s : TurnState) (ms : List Message) (m : Message)
    (hms : s.messages = ms ++ [m]) (hr : m.role = Role.assistant)
    (srcs : List Source) :
    processData s (mkSources srcs) =
      StepOut.ok { s with messages :=
        ms ++ [{ m with sources := some srcs, isThinking := some true }] } := by
  simp [processData, mkSources, hms, hr, setLast, List.getLast?_concat,
    List.dropLast_concat]

/-- C8: a sources record followed by EOF with no done record completes
the turn without error: the assistant message keeps its sources, stays
in the thinking state, no error is surfaced, and the processing flag is
cleared when the stream ends. -/
theorem C8_sources_then_eof (prior : List Message) (msg : String)
    (srcs : List Source) :
    runTurn (submitState prior msg) [mkSources srcs] =
      { messages := prior ++ [userMessage msg,
          { role := Role.assistant, content := "", sources := some srcs,
            isThinking := some true }],
        messageContent := "",
        isProcessing := false,
        uiThinking := false,
        uiError := none } := by
  have h := processData_sources_app (submitState prior msg)
    (prior ++ [userMessage msg]) assistantPlaceholder
    (by simp [submitState]) rfl srcs
  simp only [runTurn, runRecords, h, finishTurn]
  simp [submitState, assistantPlaceholder, List.append_assoc]

lemma processData_ok_fields {s : TurnState} {d : SseData} {s' : TurnState}
    (h : processData s d = StepOut.ok s') :
    s'.messages.dropLast = s.messages.dropLast ∧ s'.uiError = s.uiError ∧
      s'.uiThinking = s.uiThinking := by
  unfold processData at h
  repeat' split at h
  all_goals first
    | exact StepOut.noConfusion h
    | (injection h with h'; subst h'; simp [setLast, List.dropLast_concat])

lemma runRecords_ok_fields {ds : List SseData} {s s' : TurnState}
    (h : runRecords s ds = StepOut.ok s') :
    s'.messages.dropLast = s.messages.dropLast ∧ s'.uiError = s.uiError ∧
      s'.uiThinking = s.uiThinking := by
  induction ds generalizing s with
  | nil =>
    rw [runRecords] at h
    injection h with h'
    subst h'
    exact ⟨rfl, rfl, rfl⟩
  | cons d ds ih =>
    cases hp : processData s d with
    | ok s1 =>
      simp only [runRecords, hp] at h
      obtain ⟨a1, a2, a3⟩ := processData_ok_fields hp
      obtain ⟨b1, b2, b3⟩ := ih h
      exact ⟨b1.trans a1, b2.trans a2, b3.trans a3⟩
    | thrown t m =>
      simp only [runRecords, hp] at h
      exact StepOut.noConfusion h

lemma runRecords_append (s : TurnState) (l1 l2 : List SseData) :
    runRecords s (l1 ++ l2) =
      match runRecords s l1 with
      | StepOut.ok s' => runRecords s' l2
      | StepOut.thrown t m => StepOut.thrown t m := by
  induction l1 generalizing s with
  | nil => simp [runRecords]
  | cons d ds ih =>
    cases hp : processData s d with
    | ok s1 => simp only [List.cons_append, runRecords, hp]; exact ih s1
    | thrown t m => simp only [List.cons_append, runRecords, hp]

lemma processData_error {d : SseData} (hd : d.type = some "error")
    (s : TurnState) :
    processData s d = StepOut.thrown s (errText d) := by
  simp [processData, hd]

/-- C3: an error record, wherever it occurs, makes the turn end on the
rollback path: the last (in-progress assistant) message is removed, the
messages before it are exactly the messages before the last one at
submission time, and the error text is surfaced on the error channel. -/
theorem C3_error_event_rollback (s0 : TurnState) (pre : List SseData)
    (d : SseData) (post : List SseData) (s1 : TurnState)
    (hpre : runRecords s0 pre = StepOut.ok s1) (hd : d.type = some "error") :
    runTurn s0 (pre ++ d :: post) =
      { messages := s0.messages.dropLast,
        messageContent := s1.messageContent,
        isProcessing := false,
        uiThinking := s0.uiThinking,
        uiError := some (errText d) } := by
  have happ := runRecords_append s0 pre (d :: post)
  simp only [hpre] at happ
  rw [runTurn, happ]
  simp only [runRecords, processData_error hd]
  obtain ⟨h1, _, h3⟩ := runRecords_ok_fields hpre
  simp [finishTurn, h1, h3]

/-- C3 witness: the theorem applied at a concrete turn. -/
theorem C3_error_event_rollback_witness :
    runTurn (submitState [] "hello") ([mkToken "Hi"] ++ mkError "boom" :: []) =
      { messages := (submitState [] "hello").messages.dropLast,
        messageContent := "Hi",
        isProcessing := false,
        uiThinking := (submitState [] "hello").uiThinking,
        uiError := some (errText (mkError "boom")) } :=
  C3_error_event_rollback (submitState [] "hello") [mkToken "Hi"]
    (mkError "boom") []
    { messages := [userMessage "hello",
        { role := Role.assistant, content := "Hi", sources := none,
          isThinking := some false }],
      messageContent := "Hi", isProcessing := true, uiThinking := false,
      uiError := none }
    (by decide) rfl

lemma processLine_ok_fields {parse : List Char → Option SseData}
    {s : TurnState} {line : List Char} {s' : TurnState}
    (h : processLine parse s line = StepOut.ok s') :
    s'.messages.dropLast = s.messages.dropLast ∧ s'.uiError = s.uiError ∧
      s'.uiThinking = s.uiThinking := by
  simp only [processLine] at h
  split at h
  · split at h
    · exact StepOut.noConfusion h
    · exact processData_ok_fields h
  · injection h with h'
    subst h'
    exact ⟨rfl, rfl, rfl⟩

lemma runLines_ok_fields {parse : List Char → Option SseData}
    {ls : List (List Char)} {s s' : TurnState}
    (h : runLines parse s ls = StepOut.ok s') :
    s'.messages.dropLast = s.messages.dropLast ∧ s'.uiError = s.uiError ∧
      s'.uiThinking = s.uiThinking := by
  induction ls generalizing s with
  | nil =>
    rw [runLines] at h
    injection h with h'
    subst h'
    exact ⟨rfl, rfl, rfl⟩
  | cons l ls ih =>
    cases hp : processLine parse s l with
    | ok s1 =>
      simp only [runLines, hp] at h
      obtain ⟨a1, a2, a3⟩ := processLine_ok_fields hp
      obtain ⟨b1, b2, b3⟩ := ih h
      exact ⟨b1.trans a1, b2.trans a2, b3.trans a3⟩
    | thrown t m =>
      simp only [runLines, hp] at h
      exact StepOut.noConfusion h

lemma runLines_append (parse : List Char → Option SseData) (s : TurnState)
    (l1 l2 : List (List Char)) :
    runLines parse s (l1 ++ l2) =
      match runLines parse s l1 with
      | StepOut.ok s' => runLines parse s' l2
      | StepOut.thrown t m => StepOut.thrown t m := by
  induction l1 generalizing s with
  | nil => simp [runLines]
  | cons l ls ih =>
    cases hp : processLine parse s l with
    | ok s1 => simp only [List.cons_append, runLines, hp]; exact ih s1
    | thrown t m => simp only [List.cons_append, runLines, hp]

lemma processLine_malformed {parse : List Char → Option SseData}
    (s : TurnState) {line : List Char}
    (hmark : dataMarker.isPrefixOf (trimChars line) = true)
    (hparse : parse ((trimChars line).drop dataMarker.length) = none) :
    processLine parse s line = StepOut.thrown s jsonSyntaxErrorText := by
  simp [processLine, hmark, hparse]

/-- C7: a line that carries the data marker but whose payload does not
parse is a fatal decode error: the turn ends on the rollback path (the
partial assistant message is dropped and the decode error is surfaced),
not by silently skipping the line. -/
theorem C7_malformed_data_line_aborts (parse : List Char → Option SseData)
    (s0 : TurnState) (pre : List (List Char)) (line : List Char)
    (post : List (List Char)) (s1 : TurnState)
    (hpre : runLines parse s0 pre = StepOut.ok s1)
    (hmark : dataMarker.isPrefixOf (trimChars line) = true)
    (hparse : parse ((trimChars line).drop dataMarker.length) = none) :
    runLinesTurn parse s0 (pre ++ line :: post) =
      { messages := s0.messages.dropLast,
        messageContent := s1.messageContent,
        isProcessing := false,
        uiThinking := s0.uiThinking,
        uiError := some jsonSyntaxErrorText } := by
  have happ := runLines_append parse s0 pre (line :: post)
  simp only [hpre] at happ
  rw [runLinesTurn, happ]
  simp only [runLines, processLine_malformed s1 hmark hparse]
  obtain ⟨h1, _, h3⟩ := runLines_ok_fields hpre
  simp [finishTurn, h1, h3]

/-- C7 witness: a parse that rejects everything, applied to the single
line data-colon-space-openbrace. -/
theorem C7_malformed_data_line_aborts_witness :
    runLinesTurn (fun _ => none) (submitState [] "hi")
        ([] ++ "data: \x7b".toList :: []) =
      { messages := (submitState [] "hi").messages.dropLast,
        messageContent := (submitState [] "hi").messageContent,
        isProcessing := false,
        uiThinking := (submitState [] "hi").uiThinking,
        uiError := some jsonSyntaxErrorText } :=
  C7_malformed_data_line_aborts (fun _ => none) (submitState [] "hi") []
    ("data: \x7b".toList) [] (submitState [] "hi") rfl (by decide) rfl

/-- C4 counterexample: after the first token, a later sources record
sets isThinking back to true (part_001 line 183), and isThinking
already turns false at a token whose content is the empty string, so it
does not turn false exactly at the first non-empty token. -/
theorem C4_counterexample_thinking_claim_fails :
    lastThinking (stateOf (runRecords (submitState [] "hello")
        [mkToken "Hi",
         mkSources [{ source := "a.pdf", path := "/x/a.pdf",
                      page := none, content := none }]])) =
      some (some true) ∧
    lastThinking (stateOf (runRecords (submitState [] "hello")
        [mkToken ""])) = some (some false) := by
  decide

/-- C4 amended: isThinking becomes false at the first token record
whose content field is present (even when the fragment is empty), and
stays false under every later non-sources record of the turn; a later
sources record, however, resets it to true, because the sources branch
sets isThinking unconditionally. -/
theorem C4_amended_thinking_behaviour :
    (∀ (s : TurnState) (c : String) (m : Message),
        s.messages.getLast? = some m → m.role = Role.assistant →
        lastThinking (stateOf (processData s (mkToken c))) =
          some (some false)) ∧
    (∀ (s : TurnState) (d : SseData) (s' : TurnState),
        processData s d = StepOut.ok s' → d.type ≠ some "sources" →
        lastThinking s = some (some false) →
        lastThinking s' = some (some false)) ∧
    (∀ (s : TurnState) (srcs : List Source) (m : Message),
        s.messages.getLast? = some m → m.role = Role.assistant →
        lastThinking (stateOf (processData s (mkSources srcs))) =
          some (some true)) := by
  refine ⟨?_, ?_, ?_⟩
  · intro s c m hm hr
    simp [processData, mkToken, hm, hr, stateOf, lastThinking, setLast,
      List.getLast?_concat]
  · intro s d s' h hne hlt
    simp only [processData] at h
    repeat' split at h
    all_goals first
      | exact StepOut.noConfusion h
      | exact absurd (by assumption) hne
      | (injection h with h'; subst h';
         simp_all [lastThinking, setLast, List.getLast?_concat])
  · intro s srcs m hm hr
    simp [processData, mkSources, hm, hr, stateOf, lastThinking, setLast,
      List.getLast?_concat]

/-- C4 amended witness: the three parts applied at concrete inputs. -/
theorem C4_amended_thinking_behaviour_witness :
    lastThinking (stateOf (processData (submitState [] "hi")
        (mkToken "Hi"))) = some (some false) ∧
    lastThinking
        { messages := [userMessage "hi",
            { role := Role.assistant, content := "Hi", sources := none,
              isThinking := some false }],
          messageContent := "Hi", isProcessing := false,
          uiThinking := false, uiError := none } = some (some false) ∧
    lastThinking (stateOf (processData (submitState [] "hi")
        (mkSources []))) = some (some true) :=
  ⟨C4_amended_thinking_behaviour.1 (submitState [] "hi") "Hi"
      assistantPlaceholder (by decide) rfl,
   C4_amended_thinking_behaviour.2.1
      { messages := [userMessage "hi",
          { role := Role.assistant, content := "Hi", sources := none,
            isThinking := some false }],
        messageContent := "Hi", isProcessing := true,
        uiThinking := false, uiError := none }
      mkDone
      { messages := [userMessage "hi",
          { role := Role.assistant, content := "Hi", sources := none,
            isThinking := some false }],
        messageContent := "Hi", isProcessing := false,
        uiThinking := false, uiError := none }
      (by decide) (by decide) (by decide),
   C4_amended_thinking_behaviour.2.2 (submitState [] "hi") []
      assistantPlaceholder (by decide) rfl⟩

/-- C5 counterexample: a token record arriving after a done record has
been processed still changes the message list (nothing guards on the
completed turn). -/
theorem C5_counterexample_token_after_done :
    (stateOf (runRecords (submitState [] "hello")
        [mkDone, mkToken "x"])).messages ≠
      (stateOf (runRecords (submitState [] "hello") [mkDone])).messages := by
  decide

/-- C5 amended: events after an error record are never applied, because
the thrown error aborts the stream before reaching them; but a done
record only clears the processing flag, and records after it are still
processed normally rather than ignored. -/
theorem C5_amended_post_terminal_events :
    (∀ (s : TurnState) (pre : List SseData) (d : SseData)
        (post post' : List SseData), d.type = some "error" →
        runTurn s (pre ++ d :: post) = runTurn s (pre ++ d :: post')) ∧
    (∀ (s : TurnState) (ds : List SseData),
        runRecords s (mkDone :: ds) =
          runRecords { s with isProcessing := false } ds) := by
  constructor
  · intro s pre d post post' hd
    have h1 := runRecords_append s pre (d :: post)
    have h2 := runRecords_append s pre (d :: post')
    rw [runTurn, runTurn, h1, h2]
    cases hp : runRecords s pre with
    | ok s1 => simp only [runRecords, processData_error hd]
    | thrown t m => rfl
  · intro s ds
    simp [runRecords, processData, mkDone]

/-- C5 amended witness: part one applied with an error record followed
by a token versus nothing. -/
theorem C5_amended_post_terminal_events_witness :
    runTurn (submitState [] "hello")
        ([] ++ mkError "boom" :: [mkToken "x"]) =
      runTurn (submitState [] "hello") ([] ++ mkError "boom" :: []) :=
  C5_amended_post_terminal_events.1 (submitState [] "hello") []
    (mkError "boom") [mkToken "x"] [] rfl

/-- C6 counterexample: a token decoded after the stop action still
mutates the visible message list, so the stop action does not abandon
the client-side read. -/
theorem C6_counterexample_stop_does_not_abandon :
    (stateOf (processData (handleStop (submitState [] "hello"))
        (mkToken "x"))).messages ≠
      (handleStop (submitState [] "hello")).messages := by
  decide

/-- C6 amended: the stop action only resets the two UI flags and sends
nothing anywhere; event processing is otherwise unchanged after a stop,
so events decoded afterwards are applied exactly as before, not
discarded. -/
theorem C6_amended_stop_only_resets_flags :
    (∀ s : TurnState,
        handleStop s = { s with uiThinking := false, isProcessing := false }) ∧
    (∀ (s : TurnState) (d : SseData),
        processData (handleStop s) d = stepMap handleStop (processData s d)) := by
  constructor
  · intro s
    rfl
  · intro s d
    simp only [processData, handleStop]
    repeat' split
    all_goals simp_all [processData, stepMap, handleStop, setLast, errText]

/-- C9 counterexample: first, an explicit stopBackend does not
short-circuit the restart: after stopping a live, ready backend while
the window is alive, the exit event still schedules a restart after
5000 ms, because the handler checks only window liveness and stopBackend
sets no flag the handler consults.  Second, an exit while ready but
with the window destroyed schedules no restart at all, so the restart
is not unconditional on exits while ready either. -/
theorem C9_counterexample_stop_does_not_short_circuit :
    (onBackendExit (stopBackend
        { windowAlive := true, backendProcessLive := true,
          backendPort := 8000, backendReady := true }) 0).2 =
      some 5000 ∧
    (onBackendExit
        { windowAlive := false, backendProcessLive := true,
          backendPort := 8000, backendReady := true } 0).2 = none := by
  decide

/-- C9 amended: when the child process exits while the main window is
alive, the handler clears the readiness flag and schedules a restart
after the fixed 5000 ms delay, for every exit code and without
consulting the exit code or the readiness state; an explicit
stopBackend does not short-circuit this restart (it kills the child,
nulls the reference and clears readiness, but sets no flag the exit
handler consults); the restart is short-circuited exactly when the main
window has been destroyed. -/
theorem C9_amended_exit_restart (st : MainState) (code code' : Int)
    (hw : st.windowAlive = true) :
    onBackendExit st code = ({ st with backendReady := false }, some 5000) ∧
    onBackendExit st code = onBackendExit st code' ∧
    (onBackendExit (stopBackend st) code).2 = some 5000 ∧
    (∀ st' : MainState, st'.windowAlive = false →
      (onBackendExit st' code).2 = none) := by
  refine ⟨?_, ?_, ?_, ?_⟩
  · simp [onBackendExit, hw, restartDelayMs]
  · simp [onBackendExit, hw]
  · unfold stopBackend
    split <;> simp [onBackendExit, hw, restartDelayMs]
  · intro st' hw'
    simp [onBackendExit, hw']

/-- C9 amended witness: a ready backend exiting with code 0 while the
window is alive. -/
theorem C9_amended_exit_restart_witness :
    onBackendExit
        { windowAlive := true, backendProcessLive := true,
          backendPort := 8000, backendReady := true } 0 =
      ({ windowAlive := true, backendProcessLive := true,
         backendPort := 8000, backendReady := false }, some 5000) :=
  (C9_amended_exit_restart
    { windowAlive := true, backendProcessLive := true,
      backendPort := 8000, backendReady := true } 0 1 rfl).1

end GeoAI
